import Mathlib

/-!
Verification development for the MIC-Reader plate-reading pipeline.

The Python sources (`well_extractor.py`, `color_classifier.py`,
`mic_calculator.py`, `config.py`) are shallowly embedded below.  Numeric
values are modelled as exact rationals (`ℚ`); Python float literals such as
`0.42` denote the corresponding rational.  `np.sqrt(e) < t` comparisons are
encoded equivalently as `0 < t ∧ e < t ^ 2` (for real `e ≥ 0`,
`sqrt e < t ↔ 0 < t ∧ e < t ^ 2`), so no square roots are needed.
Python `dict`s keyed by `(row, col)` are modelled as association lists with
first-occurrence lookup, and `np.median` as "sort, take middle element, or
the mean of the two middle elements".
-/

namespace MICReader

set_option maxRecDepth 100000

/- The Batteries rational-arithmetic primitives are `@[irreducible]`, which
blocks `decide`-style evaluation of the embedded pipeline on concrete
inputs; make them unfoldable within this development. -/
attribute [local semireducible] Rat.mul Rat.inv Rat.add Rat.sub Rat.ofScientific

/-! ## Generic helpers (Python / numpy primitives) -/

/-- `np.clip(x, lo, hi)` for `lo ≤ hi`. -/
def clip (x lo hi : ℚ) : ℚ := max lo (min hi x)

/-- Python `int(q)`: truncation toward zero. -/
def pyInt (q : ℚ) : ℤ := if 0 ≤ q then ⌊q⌋ else -⌊-q⌋

/-- Python `round(q)`: round half to even (banker's rounding), as an integer. -/
def pyRoundInt (q : ℚ) : ℤ :=
  let f := ⌊q⌋
  let r := q - (f : ℚ)
  if r < 1/2 then f
  else if 1/2 < r then f + 1
  else if f % 2 = 0 then f else f + 1

/-- Python `round(q, 1)`: round to one decimal digit, half to even. -/
def pyRound1 (q : ℚ) : ℚ := (pyRoundInt (q * 10) : ℚ) / 10

/-- All unordered pairs of a list, each produced once, in index order
`(l[i], l[j])` with `i < j` — the iteration order of the Python
double loop `for i in range(n): for j in range(i+1, n)`. -/
def pairsOf {α : Type} : List α → List (α × α)
  | [] => []
  | x :: t => t.map (fun y => (x, y)) ++ pairsOf t

/-- Insert into a sorted list (ascending). -/
def insertSorted (x : ℚ) : List ℚ → List ℚ
  | [] => [x]
  | y :: t => if x ≤ y then x :: y :: t else y :: insertSorted x t

/-- Insertion sort, ascending. -/
def sortQ (l : List ℚ) : List ℚ := l.foldr insertSorted []

/-- `np.median` on a list of rationals: sort; odd length takes the middle
element, even length averages the two middle elements.  (The source never
evaluates a median of an empty list; `0` is a junk value for that case.) -/
def listMedian (l : List ℚ) : ℚ :=
  let s := sortQ l
  let n := s.length
  if n = 0 then 0
  else if n % 2 = 1 then s.getD (n / 2) 0
  else (s.getD (n / 2 - 1) 0 + s.getD (n / 2) 0) / 2

/-- Association-list lookup (first occurrence), modelling `dict.get`. -/
def alookup {κ α : Type} [DecidableEq κ] (k : κ) : List (κ × α) → Option α
  | [] => none
  | e :: t => if e.1 = k then some e.2 else alookup k t

/-- Association-list update of the first occurrence of a key, modelling
`dict[k] = v` for a key already present (an absent key leaves the list
unchanged; the sources only assign to keys they just looked up). -/
def aupdate {κ α : Type} [DecidableEq κ] (k : κ) (v : α) : List (κ × α) → List (κ × α)
  | [] => []
  | e :: t => if e.1 = k then (k, v) :: t else e :: aupdate k v t

/-- Insert with deduplication, keeping first-insertion order (models the
Python `set.add`; Python set iteration order is unspecified, so a fixed
insertion order is chosen here). -/
def insertNew (l : List ℚ) (x : ℚ) : List ℚ := if x ∈ l then l else l ++ [x]

/-! ## `config.py` -/

/-- config.py: ROWS = 8. -/
def ROWS : ℕ := 8

/-- config.py: COLS = 12. -/
def COLS : ℕ := 12

/-- config.py: ROW_LABELS. -/
def ROW_LABELS : List String := ["A", "B", "C", "D", "E", "F", "G", "H"]

/-- Row label for a row index (rows are only ever 0..7). -/
def rowLabel (r : ℕ) : String := ROW_LABELS.getD r ""

/-- config.py: ANTIFUNGALS, keyed by row label. -/
def antifungalOf (label : String) : String :=
  if label = "A" then "AND"
  else if label = "B" then "MIF"
  else if label = "C" then "CAS"
  else if label = "D" then "POS"
  else if label = "E" then "VOR"
  else if label = "F" then "ITR"
  else if label = "G" then "FLU"
  else if label = "H" then "AMB"
  else ""

/-- config.py: INHIBITION_THRESHOLDS (0.50 for all agents except AMB at
0.90).  An unknown agent would be a `KeyError` in the source; the `0`
default is never reached from rows 0..7. -/
def inhibitionThreshold (agent : String) : ℚ :=
  if agent = "AMB" then 0.90
  else if agent = "AND" ∨ agent = "MIF" ∨ agent = "CAS" ∨ agent = "POS" ∨
          agent = "VOR" ∨ agent = "ITR" ∨ agent = "FLU" then 0.50
  else 0

/-- config.py: CONCENTRATIONS per row (row H has `None` in column 0, the
control well). -/
def concList (r : ℕ) : List (Option ℚ) :=
  if r = 6 then
    [some 0.064, some 0.125, some 0.25, some 0.5, some 1, some 2,
     some 4, some 8, some 16, some 32, some 64, some 128]
  else if r = 7 then
    [none, some 0.008, some 0.016, some 0.032, some 0.064, some 0.125,
     some 0.25, some 0.5, some 1, some 2, some 4, some 8]
  else
    [some 0.004, some 0.008, some 0.016, some 0.032, some 0.064, some 0.125,
     some 0.25, some 0.5, some 1, some 2, some 4, some 8]

/-- `CONCENTRATIONS[row][col]`. -/
def concentrations (r c : ℕ) : Option ℚ := (concList r).getD c none

/-- `CONCENTRATIONS[row][-1]` (always a number in the source data). -/
def lastConc (r : ℕ) : ℚ :=
  match (concList r).getLast? with
  | some (some q) => q
  | _ => 0

/-- config.py: CONTROL_WELL = ('H', 0), i.e. row index 7, column 0. -/
def CONTROL_KEY : ℕ × ℕ := (7, 0)

/-- config.py: RELATIVE_WEIGHT = 0.65. -/
def RELATIVE_WEIGHT : ℚ := 0.65

/-- config.py: ABSOLUTE_WEIGHT = 0.35. -/
def ABSOLUTE_WEIGHT : ℚ := 0.35

/-! ## `well_extractor.py` — circle detection and grid fitting -/

/-- A detected circle `(x, y, radius)` (one row of the `n×3` numpy array). -/
structure Circle where
  x : ℚ
  y : ℚ
  r : ℚ
deriving DecidableEq, Repr

/-- One of the 96 grid slots (`{'cx', 'cy', 'radius', 'detected'}`). -/
structure Slot where
  cx : ℚ
  cy : ℚ
  radius : ℚ
  detected : Bool
deriving DecidableEq, Repr

/-- `_deduplicate` (well_extractor.py:159-176), with explicit fuel in place
of the `used` flag array: the first unmerged candidate seeds a cluster that
absorbs every later unmerged candidate within `merge_dist` of the seed; the
cluster is replaced by its componentwise mean (`np.mean(cluster, axis=0)`).
The fuel never runs out when it starts at the list length. -/
def dedupFuel (mergeDist : ℚ) : ℕ → List Circle → List Circle
  | 0, _ => []
  | _, [] => []
  | fuel + 1, c :: rest =>
    let near := rest.filter (fun c2 =>
      decide (0 < mergeDist ∧ (c.x - c2.x) ^ 2 + (c.y - c2.y) ^ 2 < mergeDist ^ 2))
    let far := rest.filter (fun c2 =>
      !decide (0 < mergeDist ∧ (c.x - c2.x) ^ 2 + (c.y - c2.y) ^ 2 < mergeDist ^ 2))
    let cluster := c :: near
    let n : ℚ := cluster.length
    ⟨(cluster.map Circle.x).sum / n, (cluster.map Circle.y).sum / n,
      (cluster.map Circle.r).sum / n⟩ :: dedupFuel mergeDist fuel far

/-- `_deduplicate(circles, merge_dist)` (well_extractor.py:159-176). -/
def deduplicate (circles : List Circle) (mergeDist : ℚ) : List Circle :=
  dedupFuel mergeDist circles.length circles

/-- `detect_circles` (well_extractor.py:114-156).  The external
`cv2.HoughCircles` sweep results are taken as an input: one entry per
`(blur_size, param2)` setting, `none` when the detector returned `None`.
Returns the filtered candidate list and the median radius (the expected
radius `0.42 × expected_cell` when every sweep returned nothing). -/
def detectCircles (houghSweeps : List (Option (List Circle))) (w h : ℚ) :
    List Circle × ℚ :=
  let expectedCell := min (w / 12) (h / 8)
  let expectedR := expectedCell * 0.42
  let minDist := pyInt (expectedCell * 0.65)
  let allCircles := houghSweeps.filterMap id
  if allCircles = [] then ([], expectedR)
  else
    let combined := allCircles.flatten
    let deduped := deduplicate combined ((minDist : ℚ) * 0.5)
    let medR := listMedian (deduped.map Circle.r)
    let filtered := deduped.filter (fun c => medR * 0.6 ≤ c.r ∧ c.r ≤ medR * 1.4)
    let edgeMargin := medR * 0.5
    let filtered2 := filtered.filter (fun c =>
      c.x > edgeMargin ∧ c.x < w - edgeMargin ∧
      c.y > edgeMargin ∧ c.y < h - edgeMargin)
    (filtered2, medR)

/-- `_estimate_step_from_pairs` (well_extractor.py:262-293).  Points come
projected so that the first component is the step axis and the second the
other axis (the caller passes swapped pairs for the y step). -/
def estimateStep (pts : List (ℚ × ℚ)) (expectedStep maxOtherDist : ℚ) :
    Option ℚ :=
  let unitDists := (pairsOf pts).filterMap (fun pq =>
    let otherDiff := |pq.1.2 - pq.2.2|
    if otherDiff > maxOtherDist then none
    else
      let axisDiff := |pq.1.1 - pq.2.1|
      if axisDiff < expectedStep * 0.5 then none
      else
        let nSteps := pyRoundInt (axisDiff / expectedStep)
        if nSteps < 1 ∨ nSteps > 12 then none
        else
          let unitDist := axisDiff / (nSteps : ℚ)
          if 0.7 * expectedStep < unitDist ∧ unitDist < 1.3 * expectedStep
          then some unitDist else none)
  if unitDists.length < 5 then none
  else some (listMedian unitDists)

/-- Origin candidates along one axis (well_extractor.py:213-228): for every
candidate coordinate and every plausible index, back-solve the origin, keep
those within `(-0.3·step, 1.5·step)` rounded to one decimal, and add the
rounded expected half-step origin. -/
def originCandidates (coords : List ℚ) (step : ℚ) (maxIdx : ℕ)
    (expectedHalf : ℚ) : List ℚ :=
  let base := coords.foldl (fun acc c =>
    (List.range maxIdx).foldl (fun acc2 k =>
      let o := c - (k : ℚ) * step
      if -step * 0.3 < o ∧ o < step * 1.5 then insertNew acc2 (pyRound1 o)
      else acc2) acc) []
  insertNew base (pyRound1 expectedHalf)

/-- `_score_grid` (well_extractor.py:296-315): count candidates landing
within `0.35·max(sx,sy)` of a free grid slot.  `err < threshold` is encoded
as `0 < threshold ∧ err² < threshold²`. -/
def scoreGrid (centers : List (ℚ × ℚ)) (ox oy sx sy : ℚ) :
    ℕ × List (ℤ × ℤ) :=
  let threshold := max sx sy * 0.35
  centers.foldl (fun st p =>
    let col := pyRoundInt ((p.1 - ox) / sx)
    let row := pyRoundInt ((p.2 - oy) / sy)
    if 0 ≤ row ∧ row < 8 ∧ 0 ≤ col ∧ col < 12 then
      let predX := ox + (col : ℚ) * sx
      let predY := oy + (row : ℚ) * sy
      let errSq := (p.1 - predX) ^ 2 + (p.2 - predY) ^ 2
      if (0 < threshold ∧ errSq < threshold ^ 2) ∧ (row, col) ∉ st.2 then
        (st.1 + 1, (row, col) :: st.2)
      else st
    else st) (0, [])

/-- Origin brute-force search (well_extractor.py:230-235): nested loops over
the candidate origin lists keeping the strictly best score (first found wins
ties).  The `(0, 0)` placeholder of the `-1` initial score is always
overwritten because scores are `≥ 0` and both lists are nonempty. -/
def bestOrigin (centers : List (ℚ × ℚ)) (oxs oys : List ℚ) (sx sy : ℚ) :
    ℚ × ℚ :=
  (oxs.foldl (fun acc ox =>
    oys.foldl (fun acc2 oy =>
      let score := (scoreGrid centers ox oy sx sy).1
      if (score : ℤ) > acc2.1 then ((score : ℤ), ox, oy) else acc2) acc)
    ((-1 : ℤ), (0 : ℚ), (0 : ℚ))).2

/-- The accepted assignments of one refinement round
(well_extractor.py:325-339): `(row, col, cx, cy)` for every circle whose
nearest slot is in range and within `threshold`. -/
def refineCollect (circles : List Circle) (ox oy sx sy threshold : ℚ) :
    List (ℤ × ℤ × ℚ × ℚ) :=
  circles.filterMap (fun c =>
    let col := pyRoundInt ((c.x - ox) / sx)
    let row := pyRoundInt ((c.y - oy) / sy)
    if 0 ≤ row ∧ row < 8 ∧ 0 ≤ col ∧ col < 12 then
      let predX := ox + (col : ℚ) * sx
      let predY := oy + (row : ℚ) * sy
      let errSq := (c.x - predX) ^ 2 + (c.y - predY) ^ 2
      if 0 < threshold ∧ errSq < threshold ^ 2 then some (row, col, c.x, c.y)
      else none
    else none)

/-- `np.linalg.lstsq` on the design matrix `[1, x]` (ordinary least squares
for `c = a + b·x`), via the closed-form normal-equation solution; exact
whenever the design matrix has full rank (the only way the source uses it).
Returns `(a, b)` = (intercept, slope). -/
def lstsqFit (xs cs : List ℚ) : ℚ × ℚ :=
  let n : ℚ := xs.length
  let sumX := xs.sum
  let sumC := cs.sum
  let sumXX := (xs.map (fun x => x ^ 2)).sum
  let sumXC := (List.zipWith (· * ·) xs cs).sum
  let denom := n * sumXX - sumX ^ 2
  let b := (n * sumXC - sumX * sumC) / denom
  let a := (sumC - b * sumX) / n
  (a, b)

/-- The `for iteration in range(3)` loop of `_refine_grid_lsq`
(well_extractor.py:318-353): up to three rounds of assign-then-least-squares,
breaking early (returning the current parameters) when fewer than 20
assignments qualify.  `threshold` is fixed from the initial steps. -/
def refineLoop (circles : List Circle) (threshold : ℚ) :
    ℕ → ℚ × ℚ × ℚ × ℚ → ℚ × ℚ × ℚ × ℚ
  | 0, st => st
  | fuel + 1, (ox, oy, sx, sy) =>
    let pts := refineCollect circles ox oy sx sy threshold
    if pts.length < 20 then (ox, oy, sx, sy)
    else
      let fitX := lstsqFit (pts.map (fun p => (p.2.1 : ℚ))) (pts.map (fun p => p.2.2.1))
      let fitY := lstsqFit (pts.map (fun p => (p.1 : ℚ))) (pts.map (fun p => p.2.2.2))
      refineLoop circles threshold fuel (fitX.1, fitY.1, fitX.2, fitY.2)

/-- `_refine_grid_lsq(circles, ox, oy, sx, sy)` (well_extractor.py:318-353). -/
def refineGridLsq (circles : List Circle) (ox oy sx sy : ℚ) :
    ℚ × ℚ × ℚ × ℚ :=
  refineLoop circles (max sx sy * 0.35) 3 (ox, oy, sx, sy)

/-- `_assign_circles` (well_extractor.py:356-382): assign each circle to its
nearest in-range slot within `0.45·max(sx,sy)`; on competition keep the
circle closer to the predicted position. -/
def assignCircles (circles : List Circle) (ox oy sx sy : ℚ) :
    List ((ℤ × ℤ) × (ℚ × ℚ × ℚ)) :=
  let threshold := max sx sy * 0.45
  circles.foldl (fun acc c =>
    let col := pyRoundInt ((c.x - ox) / sx)
    let row := pyRoundInt ((c.y - oy) / sy)
    if 0 ≤ row ∧ row < 8 ∧ 0 ≤ col ∧ col < 12 then
      let predX := ox + (col : ℚ) * sx
      let predY := oy + (row : ℚ) * sy
      let errSq := (c.x - predX) ^ 2 + (c.y - predY) ^ 2
      if 0 < threshold ∧ errSq < threshold ^ 2 then
        match alookup (row, col) acc with
        | none => acc ++ [((row, col), (c.x, c.y, c.r))]
        | some old =>
          let oldErrSq := (old.1 - predX) ^ 2 + (old.2.1 - predY) ^ 2
          if errSq < oldErrSq then aupdate (row, col) (c.x, c.y, c.r) acc
          else acc
      else acc
    else acc) []

/-- The 96 `(row, col)` keys in row-major order — the iteration order of
`for row in range(ROWS): for col in range(COLS)`. -/
def rcPairs : List (ℕ × ℕ) :=
  (List.range ROWS).flatMap (fun r => (List.range COLS).map (fun c => (r, c)))

/-- Build the 8×12 grid dictionary in row-major insertion order. -/
def buildGrid (f : ℕ → ℕ → Slot) : List ((ℕ × ℕ) × Slot) :=
  rcPairs.map (fun p => (p, f p.1 p.2))

/-- `fit_grid_robust` (well_extractor.py:183-259): pairwise step estimation
(falling back to the expected cell size), brute-force origin search,
three-round least-squares refinement, slot assignment, and grid assembly.
Note: the source applies no step-ratio (square-pitch) correction between
step estimation and origin search. -/
def fitGridRobust (circles : List Circle) (imgW imgH medRadius : ℚ) :
    List ((ℕ × ℕ) × Slot) × (ℚ × ℚ × ℚ × ℚ) :=
  let centers := circles.map (fun c => (c.x, c.y))
  let expectedSx := imgW / 12
  let expectedSy := imgH / 8
  let stepX := (estimateStep centers expectedSx (expectedSy * 0.4)).getD expectedSx
  let stepY := (estimateStep (centers.map (fun p => (p.2, p.1))) expectedSy
      (expectedSx * 0.4)).getD expectedSy
  let oxs := originCandidates (centers.map Prod.fst) stepX COLS (expectedSx / 2)
  let oys := originCandidates (centers.map Prod.snd) stepY ROWS (expectedSy / 2)
  let best := bestOrigin centers oxs oys stepX stepY
  let refined := refineGridLsq circles best.1 best.2 stepX stepY
  let ox := refined.1
  let oy := refined.2.1
  let sx := refined.2.2.1
  let sy := refined.2.2.2
  let assignments := assignCircles circles ox oy sx sy
  let grid := buildGrid (fun r c =>
    match alookup ((r : ℤ), (c : ℤ)) assignments with
    | some a => ⟨a.1, a.2.1, a.2.2, true⟩
    | none => ⟨ox + (c : ℚ) * sx, oy + (r : ℚ) * sy, medRadius, false⟩)
  (grid, (ox, oy, sx, sy))

/-- `_naive_grid` (well_extractor.py:389-396): evenly spaced fallback grid,
origin at half a step, every slot undetected with the median radius. -/
def naiveGrid (imgW imgH medRadius : ℚ) :
    List ((ℕ × ℕ) × Slot) × (ℚ × ℚ × ℚ × ℚ) :=
  let sx := imgW / COLS
  let sy := imgH / ROWS
  let ox := sx / 2
  let oy := sy / 2
  (buildGrid (fun r c => ⟨ox + (c : ℚ) * sx, oy + (r : ℚ) * sy, medRadius, false⟩),
    (ox, oy, sx, sy))

/-- The grid-selection step of `extract_wells` (well_extractor.py:25-29):
fewer than 20 filtered candidates falls back to the naive grid, otherwise
the robust fitter runs. -/
def gridStage (circles : List Circle) (imgW imgH medRadius : ℚ) :
    List ((ℕ × ℕ) × Slot) × (ℚ × ℚ × ℚ × ℚ) :=
  if circles.length < 20 then naiveGrid imgW imgH medRadius
  else fitGridRobust circles imgW imgH medRadius

/-! ## `color_classifier.py` -/

/-- The classification states used by the classifier ('growth',
'inhibition', 'uncertain'; no other value is ever assigned). -/
inductive Class where
  | growth
  | inhibition
  | uncertain
deriving DecidableEq, Repr

/-- `Confidence` (color_classifier.py:30-34). -/
inductive Confidence where
  | high
  | medium
  | low
deriving DecidableEq, Repr

/-- The per-well color statistics consumed by the classifier: the
`hsv_median` and `rgb_mean` triples and `pixel_count` of a well record
(the remaining fields of `extract_wells` records — means, centers, bounds,
radius, crop — are never read by the classifier or the MIC calculator and
are omitted). -/
structure WellData where
  hsvMedian : ℚ × ℚ × ℚ
  rgbMean : ℚ × ℚ × ℚ
  pixelCount : ℕ
  detected : Bool
deriving DecidableEq, Repr

/-- `_empty_well` (well_extractor.py:399-404): the record produced for a
degenerate crop (smaller than 5×5, well_extractor.py:65-67) or an empty
sample — zeroed statistics and `pixel_count = 0`. -/
def emptyWell : WellData := ⟨(0, 0, 0), (0, 0, 0), 0, false⟩

/-- A classified well record: the sampled data plus scores, classification
and confidence (color_classifier.py:113-120). -/
structure ClassifiedWell where
  data : WellData
  growthScore : ℚ
  relativeScore : ℚ
  absoluteScore : ℚ
  classification : Class
  confidence : Confidence
deriving DecidableEq, Repr

/-- `PINK_THRESHOLD` (color_classifier.py:25). -/
def PINK_THRESHOLD : ℚ := 0.50

/-- `PURPLE_THRESHOLD` (color_classifier.py:26). -/
def PURPLE_THRESHOLD : ℚ := 0.30

/-- `FALLBACK_THRESHOLD` (color_classifier.py:27). -/
def FALLBACK_THRESHOLD : ℚ := 0.40

/-- `circular_hue_distance` (color_classifier.py:308-311). -/
def circularHueDistance (h1 h2 : ℚ) : ℚ := min |h1 - h2| (180 - |h1 - h2|)

/-- Feature 1 of `compute_relative_score` (color_classifier.py:231-234):
saturation distance normalized against the calibration anchors. -/
def relSatScore (ws growthSat inhibSat : ℚ) : ℚ :=
  let satRange := max (inhibSat - growthSat) 30
  1 - clip ((ws - growthSat) / satRange) 0 1

/-- Feature 2 of `compute_relative_score` (color_classifier.py:236-238):
hue distance from the control hue. -/
def relHueScore (wh ch : ℚ) : ℚ :=
  max 0 (1 - circularHueDistance wh ch / 35)

/-- Feature 3 of `compute_relative_score` (color_classifier.py:240-249):
red-minus-blue ratio relative to the control. -/
def relRbScore (wRb cRb : ℚ) : ℚ :=
  if |cRb| > 3 then max 0 (min 1 (clip (wRb / cRb) (-0.2) 1.2))
  else if wRb > 0 then 1 else 0

/-- Feature 4 of `compute_relative_score` (color_classifier.py:251-255):
green-channel depression relative to the control. -/
def relGScore (wellRgb ctrlRgb : ℚ × ℚ × ℚ) : ℚ :=
  let wg := wellRgb.2.1 / ((wellRgb.1 + wellRgb.2.1 + wellRgb.2.2) / 3 + 1)
  let cg := ctrlRgb.2.1 / ((ctrlRgb.1 + ctrlRgb.2.1 + ctrlRgb.2.2) / 3 + 1)
  clip (1 + (wg - cg) * 5) 0 1

/-- `compute_relative_score` (color_classifier.py:222-263): weighted sum of
the four features, clipped to `[0, 1]`. -/
def computeRelativeScore (wellHsv wellRgb ctrlHsv ctrlRgb : ℚ × ℚ × ℚ)
    (growthSat inhibSat : ℚ) : ℚ :=
  clip (0.40 * relSatScore wellHsv.2.1 growthSat inhibSat
      + 0.20 * relHueScore wellHsv.1 ctrlHsv.1
      + 0.20 * relRbScore (wellRgb.1 - wellRgb.2.2) (ctrlRgb.1 - ctrlRgb.2.2)
      + 0.20 * relGScore wellRgb ctrlRgb) 0 1

/-- Saturation adjustment of `compute_absolute_score`
(color_classifier.py:276-285); the `if/elif` chain is written as one
selector. -/
def absSatAdj (s : ℚ) : ℚ :=
  if s < 35 then 0.35
  else if s > 80 then -0.40
  else if s > 50 then -0.20
  else -((s - 35) / 15 * 0.15)

/-- Hue adjustment of `compute_absolute_score` (color_classifier.py:287-293),
including the nested extra penalty for `s > 60`. -/
def absHueAdj (h s : ℚ) : ℚ :=
  if 145 ≤ h ∧ h ≤ 165 then (if s > 60 then -0.25 else -0.15)
  else if h ≥ 165 ∨ h ≤ 12 then 0.10
  else 0

/-- Red-minus-blue adjustment of `compute_absolute_score`
(color_classifier.py:295-299). -/
def absRbAdj (rbDiff : ℚ) : ℚ :=
  if rbDiff < 0 then -0.10
  else if rbDiff > 15 then 0.10
  else 0

/-- Green-depression adjustment of `compute_absolute_score`
(color_classifier.py:301-303). -/
def absGreenAdj (r g b s : ℚ) : ℚ :=
  if g < r * 0.7 ∧ g < b * 0.8 ∧ s > 50 then -0.15 else 0

/-- `compute_absolute_score` (color_classifier.py:266-305): `0.5` plus the
sequentially applied adjustments, clipped to `[0, 1]`.  The
`growth_sat`/`inhib_sat`/`sat_mid` parameters of the source signature are
never read inside the function body. -/
def computeAbsoluteScore (wellHsv wellRgb : ℚ × ℚ × ℚ)
    (growthSat inhibSat satMid : ℚ) : ℚ :=
  clip (0.5 + absSatAdj wellHsv.2.1 + absHueAdj wellHsv.1 wellHsv.2.1
      + absRbAdj (wellRgb.1 - wellRgb.2.2)
      + absGreenAdj wellRgb.1 wellRgb.2.1 wellRgb.2.2 wellHsv.2.1) 0 1

/-- The combined growth score of `classify_wells`
(color_classifier.py:88-99): `0.65·relative + 0.35·absolute`, clipped to
`[0, 1]`. -/
def combinedGrowthScore (wellHsv wellRgb ctrlHsv ctrlRgb : ℚ × ℚ × ℚ)
    (growthSat inhibSat satMid : ℚ) : ℚ :=
  clip (RELATIVE_WEIGHT
        * computeRelativeScore wellHsv wellRgb ctrlHsv ctrlRgb growthSat inhibSat
      + ABSOLUTE_WEIGHT
        * computeAbsoluteScore wellHsv wellRgb growthSat inhibSat satMid) 0 1

/-- Phase-1 classification of one well (color_classifier.py:84-120):
compute the scores and apply the `> 0.50` / `< 0.30` thresholds, leaving
the middle band `uncertain` with provisional low confidence. -/
def classifyOne (d : WellData) (ctrl : WellData)
    (growthSat inhibSat satMid : ℚ) : ClassifiedWell :=
  let rel := computeRelativeScore d.hsvMedian d.rgbMean ctrl.hsvMedian
    ctrl.rgbMean growthSat inhibSat
  let absS := computeAbsoluteScore d.hsvMedian d.rgbMean growthSat inhibSat satMid
  let score := combinedGrowthScore d.hsvMedian d.rgbMean ctrl.hsvMedian
    ctrl.rgbMean growthSat inhibSat satMid
  if score > PINK_THRESHOLD then ⟨d, score, rel, absS, Class.growth, Confidence.high⟩
  else if score < PURPLE_THRESHOLD then
    ⟨d, score, rel, absS, Class.inhibition, Confidence.high⟩
  else ⟨d, score, rel, absS, Class.uncertain, Confidence.low⟩

/-- Calibration step of `classify_wells` (color_classifier.py:57-78):
partition wells into growth-like / inhibition-like profiles by coarse
thresholds, take the median saturation of each group (falling back to the
control saturation resp. `140.0`), and return
`(growth_sat_median, inhib_sat_median, sat_midpoint)`. -/
def calibrate (wells : List ((ℕ × ℕ) × WellData)) (ctrlHsv : ℚ × ℚ × ℚ) :
    ℚ × ℚ × ℚ :=
  let growthProfiles := wells.filter (fun e =>
    e.2.hsvMedian.2.1 < 35 ∧ e.2.rgbMean.1 - e.2.rgbMean.2.2 > 10)
  let inhibProfiles := wells.filter (fun e =>
    e.2.hsvMedian.2.1 > 80 ∧ 140 ≤ e.2.hsvMedian.1 ∧ e.2.hsvMedian.1 ≤ 165)
  let growthSatMedian :=
    if growthProfiles = [] then ctrlHsv.2.1
    else listMedian (growthProfiles.map (fun e => e.2.hsvMedian.2.1))
  let inhibSatMedian :=
    if inhibProfiles = [] then 140
    else listMedian (inhibProfiles.map (fun e => e.2.hsvMedian.2.1))
  (growthSatMedian, inhibSatMedian, (growthSatMedian + inhibSatMedian) / 2)

/-- `apply_neighbor_rules` (color_classifier.py:180-219): the six decision
rules, in source order. -/
def applyNeighborRules (score : ℚ) (leftClass rightClass : Option Class) :
    Class × Confidence :=
  if leftClass = some Class.growth ∧ rightClass = some Class.inhibition then
    (Class.inhibition, Confidence.medium)
  else if leftClass = some Class.growth ∧
      (rightClass = some Class.uncertain ∨ rightClass = none) then
    (Class.growth, Confidence.medium)
  else if (leftClass = some Class.uncertain ∨ leftClass = none) ∧
      rightClass = some Class.inhibition then
    (Class.inhibition, Confidence.medium)
  else if leftClass = some Class.growth ∧ rightClass = some Class.growth then
    (Class.growth, Confidence.medium)
  else if leftClass = some Class.inhibition ∧ rightClass = some Class.inhibition then
    (Class.inhibition, Confidence.medium)
  else if leftClass = none ∧ rightClass = some Class.inhibition then
    (Class.inhibition, Confidence.medium)
  else if leftClass = some Class.growth ∧ rightClass = none then
    (Class.growth, Confidence.medium)
  else if score ≥ FALLBACK_THRESHOLD then (Class.growth, Confidence.low)
  else (Class.inhibition, Confidence.low)

/-- The update applied by `resolve_uncertain_wells` to one looked-up well
(color_classifier.py:154-171): skip already-decided wells, otherwise read
the left/right neighbors from the current (possibly already-updated)
mapping, apply the decision rules, and store the result. -/
def resolveWith (m : List ((ℕ × ℕ) × ClassifiedWell)) (p : ℕ × ℕ)
    (w : ClassifiedWell) : List ((ℕ × ℕ) × ClassifiedWell) :=
  if w.classification = Class.uncertain then
    let left := if p.2 > 0 then alookup (p.1, p.2 - 1) m else none
    let right := if p.2 < COLS - 1 then alookup (p.1, p.2 + 1) m else none
    let nc := applyNeighborRules w.growthScore (left.map (·.classification))
      (right.map (·.classification))
    aupdate p { w with classification := nc.1, confidence := nc.2 } m
  else m

/-- The loop body of `resolve_uncertain_wells` (color_classifier.py:151-173)
for one `(row, col)`: missing wells are skipped. -/
def resolveStep (m : List ((ℕ × ℕ) × ClassifiedWell)) (p : ℕ × ℕ) :
    List ((ℕ × ℕ) × ClassifiedWell) :=
  match alookup p m with
  | none => m
  | some w => resolveWith m p w

/-- `resolve_uncertain_wells` (color_classifier.py:142-177): row-major scan
over the 96 grid positions, resolving each uncertain well in place. -/
def resolveUncertain (m : List ((ℕ × ℕ) × ClassifiedWell)) :
    List ((ℕ × ℕ) × ClassifiedWell) :=
  rcPairs.foldl resolveStep m

/-- Phase 1 of `classify_wells` (color_classifier.py:80-122): score and
threshold-classify every well against the control and the calibration
anchors. -/
def phase1 (wells : List ((ℕ × ℕ) × WellData)) (ctrl : WellData) :
    List ((ℕ × ℕ) × ClassifiedWell) :=
  let cal := calibrate wells ctrl.hsvMedian
  wells.map (fun e => (e.1, classifyOne e.2 ctrl cal.1 cal.2.1 cal.2.2))

/-- `classify_wells` (color_classifier.py:37-139): control lookup (missing
control raises `ValueError`, modelled as `none`), calibration, phase-1
threshold classification of every well, then the neighbor-resolution pass. -/
def classifyWells (wells : List ((ℕ × ℕ) × WellData)) :
    Option (List ((ℕ × ℕ) × ClassifiedWell)) :=
  match alookup CONTROL_KEY wells with
  | none => none
  | some ctrl => some (resolveUncertain (phase1 wells ctrl))

/-! ## `mic_calculator.py` -/

/-- The value stored in `mic_value`: either a concentration number or the
`'>top'` above-range marker string. -/
inductive MicVal where
  | conc : ℚ → MicVal
  | above : ℚ → MicVal
deriving DecidableEq, Repr

/-- The `note` string of a MIC row, as the finitely many shapes the source
can build (mic_calculator.py:123-134): empty, `'>top'` (optionally with the
column-12 edge-artifact suffix), `'Belirlenemedi'`, or `'≤value'`. -/
inductive MicNote where
  | blank
  | aboveTop : Bool → MicNote
  | undetermined
  | leqValue : ℚ → MicNote
deriving DecidableEq, Repr

/-- One row of the `calculate_mic` result list (mic_calculator.py:136-145).
`antifungal_name` is a fixed lookup of `antifungal` and is omitted. -/
structure MicRow where
  row : String
  antifungal : String
  micValue : Option MicVal
  micColumn : Option ℕ
  inhibThreshold : ℚ
  wellScores : List (Option ℚ)
  note : MicNote
deriving DecidableEq, Repr

/-- The relative-inhibition computation of the MIC scan
(mic_calculator.py:110-116): guarded division by the control score, then
clamped below at `0`. -/
def relInhibition (ctrlScore score : ℚ) : ℚ :=
  max 0 (if ctrlScore > 0.01 then 1 - score / ctrlScore else 0)

/-- The `for col_idx in range(start_col, COLS)` scan with `break`
(mic_calculator.py:105-121): skip missing scores, return the first column
whose relative inhibition reaches the threshold. -/
def findMicCol (ctrlScore threshold : ℚ) :
    List (Option ℚ) → ℕ → Option ℕ
  | [], _ => none
  | none :: t, c => findMicCol ctrlScore threshold t (c + 1)
  | some s :: t, c =>
    if relInhibition ctrlScore s ≥ threshold then some c
    else findMicCol ctrlScore threshold t (c + 1)

/-- The column-12 edge-artifact check (mic_calculator.py:52-72): compare
median saturations of columns 12 and 11. -/
def col12EdgeArtifact (m : List ((ℕ × ℕ) × ClassifiedWell)) : Bool :=
  let col12Sats := (List.range ROWS).filterMap (fun rI =>
    (alookup (rI, 11) m).map (fun d => d.data.hsvMedian.2.1))
  let col11Sats := (List.range ROWS).filterMap (fun rI =>
    (alookup (rI, 10) m).map (fun d => d.data.hsvMedian.2.1))
  if col12Sats ≠ [] ∧ col11Sats ≠ [] then
    let med12 := listMedian col12Sats
    let med11 := listMedian col11Sats
    decide (med12 < 25 ∧ med11 > med12 * 1.5)
  else false

/-- The row's inhibition threshold (mic_calculator.py:78-81):
`INHIBITION_THRESHOLDS[ANTIFUNGALS[row_label]]`. -/
def rowThreshold (r : ℕ) : ℚ := inhibitionThreshold (antifungalOf (rowLabel r))

/-- The row's MIC-scan start column (mic_calculator.py:92-97): column 1 for
row H (whose column 0 holds the control), column 0 otherwise. -/
def rowStartCol (r : ℕ) : ℕ := if rowLabel r = "H" then 1 else 0

/-- The row's `well_scores` list (mic_calculator.py:83-90). -/
def rowWellScores (m : List ((ℕ × ℕ) × ClassifiedWell)) (r : ℕ) :
    List (Option ℚ) :=
  (List.range COLS).map (fun c => (alookup (r, c) m).map (·.growthScore))

/-- The row's `mic_column` (mic_calculator.py:99-121): the threshold scan
starting at the row's start column. -/
def rowMicColumn (m : List ((ℕ × ℕ) × ClassifiedWell)) (ctrlScore : ℚ)
    (r : ℕ) : Option ℕ :=
  findMicCol ctrlScore (rowThreshold r)
    ((rowWellScores m r).drop (rowStartCol r)) (rowStartCol r)

/-- The row's `mic_value` directly after the scan (mic_calculator.py:119):
the found column's concentration, when a column was found. -/
def rowMicValue0 (m : List ((ℕ × ℕ) × ClassifiedWell)) (ctrlScore : ℚ)
    (r : ℕ) : Option MicVal :=
  (rowMicColumn m ctrlScore r).bind (fun c =>
    (concentrations r c).map MicVal.conc)

/-- `all(s is not None and s > 0.5 for s in well_scores[start_col:])`
(mic_calculator.py:124). -/
def rowAllGrow (m : List ((ℕ × ℕ) × ClassifiedWell)) (r : ℕ) : Bool :=
  ((rowWellScores m r).drop (rowStartCol r)).all (fun s =>
    match s with
    | some q => decide (q > 0.5)
    | none => false)

/-- One row of the `for row_idx in range(ROWS)` loop of `calculate_mic`
(mic_calculator.py:76-145): the threshold scan from the row's start column,
plus the `>top` / `Belirlenemedi` / `≤lowest` edge-case handling of
`mic_value` and `note`. -/
def calcRow (m : List ((ℕ × ℕ) × ClassifiedWell)) (ctrlScore : ℚ)
    (artifact : Bool) (r : ℕ) : MicRow :=
  let micValue0 := rowMicValue0 m ctrlScore r
  let vn : Option MicVal × MicNote :=
    if micValue0 = none ∧ rowAllGrow m r then
      (some (MicVal.above (lastConc r)), MicNote.aboveTop artifact)
    else if micValue0 = none then (none, MicNote.undetermined)
    else (micValue0, MicNote.blank)
  let note :=
    match vn.1 with
    | some (MicVal.conc q) =>
      if rowMicColumn m ctrlScore r = some (rowStartCol r) then
        MicNote.leqValue q
      else vn.2
    | _ => vn.2
  ⟨rowLabel r, antifungalOf (rowLabel r), vn.1, rowMicColumn m ctrlScore r,
    rowThreshold r, rowWellScores m r, note⟩

/-- `calculate_mic` (mic_calculator.py:15-147): control lookup (missing
control raises `ValueError`, modelled as `none`), edge-artifact check, then
one `MicRow` per plate row. -/
def calculateMic (m : List ((ℕ × ℕ) × ClassifiedWell)) : Option (List MicRow) :=
  match alookup CONTROL_KEY m with
  | none => none
  | some ctrl =>
    some ((List.range ROWS).map (calcRow m ctrl.growthScore (col12EdgeArtifact m)))

/-! ## Concrete inputs used for witnesses and counterexamples -/

/-- A candidate set of 20 circles on an exact 2-row × 10-column grid with
x-step 100 and y-step 50 (radius 20 each), for a 1200×400 image. -/
def twoRowCircles : List Circle :=
  ((List.range 2).map (fun r => (List.range 10).map (fun c =>
    Circle.mk (50 + 100 * (c : ℚ)) (25 + 50 * (r : ℚ)) 20))).flatten

/-- A wells mapping holding only the control well, carrying the degenerate
(`_empty_well`) record. -/
def singletonCtrlWells : List ((ℕ × ℕ) × WellData) := [(CONTROL_KEY, emptyWell)]

/-- A classified-well record carrying only a growth score (the other fields
are irrelevant to the MIC calculator's scan). -/
def mkCW (s : ℚ) : ClassifiedWell :=
  ⟨emptyWell, s, 0, 0, Class.growth, Confidence.high⟩

/-- The spec's end-to-end MIC scenario: control growth score `0.90` and one
row of 12 scores decreasing linearly from `0.90` towards `0.05`
(step `0.85/11`). -/
def micDemoWells : List ((ℕ × ℕ) × ClassifiedWell) :=
  ((List.range 12).map (fun c =>
    (((0 : ℕ), (c : ℕ)), mkCW (9/10 - (c : ℚ) * (17/220))))) ++
    [(CONTROL_KEY, mkCW (9/10))]

/-- The linear score ramp of `micDemoWells`, as a function of the column. -/
def micDemoScore (c : ℕ) : ℚ := 9/10 - (c : ℚ) * (17/220)

/-- A classified mapping whose control well has growth score `0`. -/
def zeroCtrlWells : List ((ℕ × ℕ) × ClassifiedWell) := [(CONTROL_KEY, mkCW 0)]

/-- A throwaway record used only to spell `Option.getD` instantiations in
witness statements. -/
def defaultCW : ClassifiedWell :=
  ⟨emptyWell, 0, 0, 0, Class.uncertain, Confidence.low⟩

/-! ## Helper lemmas: `clip` -/

theorem lo_le_clip (x lo hi : ℚ) : lo ≤ clip x lo hi := le_max_left _ _

theorem clip_le_hi (x lo hi : ℚ) (h : lo ≤ hi) : clip x lo hi ≤ hi :=
  max_le h (min_le_left _ _)

theorem clip_mono (x y lo hi : ℚ) (h : x ≤ y) : clip x lo hi ≤ clip y lo hi :=
  max_le_max le_rfl (min_le_min le_rfl h)

theorem clip_eq_self (x lo hi : ℚ) (h1 : lo ≤ x) (h2 : x ≤ hi) :
    clip x lo hi = x := by
  unfold clip
  rw [min_eq_right h2, max_eq_right h1]

theorem clip_eq_lo (x lo hi : ℚ) (hx : x ≤ lo) (hlh : lo ≤ hi) :
    clip x lo hi = lo := by
  unfold clip
  rw [min_eq_right (hx.trans hlh), max_eq_left hx]

theorem le_clip (c x lo hi : ℚ) (hhi : c ≤ hi) (hx : c ≤ x) :
    c ≤ clip x lo hi :=
  le_max_of_le_right (le_min hhi hx)

/-! ## Helper lemmas: sorting and medians -/

theorem mem_insertSorted (x y : ℚ) (l : List ℚ) :
    y ∈ insertSorted x l ↔ y = x ∨ y ∈ l := by
  induction l with
  | nil => simp [insertSorted]
  | cons a t ih =>
    by_cases h : x ≤ a <;> simp [insertSorted, h, ih] <;> tauto

theorem length_insertSorted (x : ℚ) (l : List ℚ) :
    (insertSorted x l).length = l.length + 1 := by
  induction l with
  | nil => rfl
  | cons a t ih =>
    by_cases h : x ≤ a <;> simp [insertSorted, h, ih]

theorem mem_sortQ (y : ℚ) (l : List ℚ) : y ∈ sortQ l ↔ y ∈ l := by
  induction l with
  | nil => simp [sortQ]
  | cons a t ih =>
    show y ∈ insertSorted a (sortQ t) ↔ _
    rw [mem_insertSorted]
    simp [ih]

theorem length_sortQ (l : List ℚ) : (sortQ l).length = l.length := by
  induction l with
  | nil => rfl
  | cons a t ih =>
    show (insertSorted a (sortQ t)).length = _
    rw [length_insertSorted, ih]
    rfl

theorem sortQ_getD_mem (l : List ℚ) (i : ℕ) (hi : i < (sortQ l).length) :
    (sortQ l).getD i 0 ∈ l := by
  rw [List.getD_eq_getElem _ _ hi]
  exact (mem_sortQ _ l).mp (List.getElem_mem hi)

theorem listMedian_nonneg (l : List ℚ) (h : ∀ x ∈ l, 0 ≤ x) :
    0 ≤ listMedian l := by
  simp only [listMedian]
  split_ifs with h0 hodd
  · exact le_rfl
  · refine h _ (sortQ_getD_mem l _ ?_)
    have := length_sortQ l
    omega
  · have hlen := length_sortQ l
    have h1 : (sortQ l).length / 2 - 1 < (sortQ l).length := by omega
    have h2 : (sortQ l).length / 2 < (sortQ l).length := by omega
    have := h _ (sortQ_getD_mem l _ h1)
    have := h _ (sortQ_getD_mem l _ h2)
    positivity

/-! ## Helper lemmas: association lists -/

theorem alookup_mem {κ α : Type} [DecidableEq κ] (k : κ) (v : α)
    (l : List (κ × α)) (h : alookup k l = some v) : (k, v) ∈ l := by
  induction l with
  | nil => simp [alookup] at h
  | cons e t ih =>
    by_cases he : e.1 = k
    · simp only [alookup, if_pos he] at h
      obtain ⟨a, b⟩ := e
      subst he
      injection h with hbv
      subst hbv
      exact List.mem_cons_self _ _
    · simp only [alookup, if_neg he] at h
      exact List.mem_cons_of_mem _ (ih h)

theorem alookup_map {κ α β : Type} [DecidableEq κ] (k : κ) (f : α → β)
    (l : List (κ × α)) :
    alookup k (l.map (fun e => (e.1, f e.2))) = (alookup k l).map f := by
  induction l with
  | nil => rfl
  | cons e t ih =>
    by_cases he : e.1 = k <;> simp [alookup, he, ih]

theorem aupdate_of_none {κ α : Type} [DecidableEq κ] (k : κ) (v : α)
    (l : List (κ × α)) (h : alookup k l = none) : aupdate k v l = l := by
  induction l with
  | nil => rfl
  | cons e t ih =>
    by_cases he : e.1 = k
    · simp [alookup, he] at h
    · simp only [alookup, if_neg he] at h
      simp [aupdate, he, ih h]

theorem alookup_aupdate_self {κ α : Type} [DecidableEq κ] (k : κ) (v w : α)
    (l : List (κ × α)) (h : alookup k l = some w) :
    alookup k (aupdate k v l) = some v := by
  induction l with
  | nil => simp [alookup] at h
  | cons e t ih =>
    by_cases he : e.1 = k
    · simp [aupdate, he, alookup]
    · simp only [alookup, if_neg he] at h
      simp [aupdate, he, alookup, ih h]

theorem alookup_aupdate_ne {κ α : Type} [DecidableEq κ] (k k' : κ) (v : α)
    (l : List (κ × α)) (h : k' ≠ k) :
    alookup k' (aupdate k v l) = alookup k' l := by
  induction l with
  | nil => rfl
  | cons e t ih =>
    by_cases he : e.1 = k
    · subst he
      have hne : ¬ e.1 = k' := fun hh => h hh.symm
      simp [aupdate, alookup, hne]
    · by_cases he' : e.1 = k' <;> simp [aupdate, alookup, he, he', ih, h]

theorem alookup_aupdate_isSome {κ α : Type} [DecidableEq κ] (k k' : κ) (v : α)
    (l : List (κ × α)) :
    (alookup k' (aupdate k v l)).isSome = (alookup k' l).isSome := by
  by_cases hk : k' = k
  · subst hk
    cases h : alookup k' l with
    | none => rw [aupdate_of_none _ _ _ h, h]
    | some w => simp [alookup_aupdate_self _ _ _ _ h, h]
  · rw [alookup_aupdate_ne _ _ _ _ hk]

/-! ## Lemmas about the neighbor-resolution pass -/

/-- A classification the resolution pass accepts as final. -/
def resolvedClass (c : Class) : Prop :=
  c = Class.growth ∨ c = Class.inhibition

theorem applyNeighborRules_resolved (score : ℚ) (lc rc : Option Class) :
    resolvedClass (applyNeighborRules score lc rc).1 := by
  unfold applyNeighborRules resolvedClass
  split_ifs <;> simp

theorem resolveStep_of_none (m : List ((ℕ × ℕ) × ClassifiedWell))
    (p : ℕ × ℕ) (hp : alookup p m = none) : resolveStep m p = m := by
  unfold resolveStep
  rw [hp]

theorem resolveStep_of_some (m : List ((ℕ × ℕ) × ClassifiedWell))
    (p : ℕ × ℕ) (w : ClassifiedWell) (hp : alookup p m = some w) :
    resolveStep m p = resolveWith m p w := by
  unfold resolveStep
  rw [hp]

theorem resolveStep_lookup_ne (m : List ((ℕ × ℕ) × ClassifiedWell))
    (p k : ℕ × ℕ) (h : k ≠ p) :
    alookup k (resolveStep m p) = alookup k m := by
  cases hp : alookup p m with
  | none => rw [resolveStep_of_none m p hp]
  | some w =>
    rw [resolveStep_of_some m p w hp]
    unfold resolveWith
    by_cases hu : w.classification = Class.uncertain
    · rw [if_pos hu]
      exact alookup_aupdate_ne _ _ _ _ h
    · rw [if_neg hu]

theorem resolveStep_self_resolved (m : List ((ℕ × ℕ) × ClassifiedWell))
    (p : ℕ × ℕ) (w' : ClassifiedWell)
    (h : alookup p (resolveStep m p) = some w') :
    resolvedClass w'.classification := by
  cases hp : alookup p m with
  | none =>
    rw [resolveStep_of_none m p hp, hp] at h
    cases h
  | some w =>
    rw [resolveStep_of_some m p w hp] at h
    unfold resolveWith at h
    by_cases hu : w.classification = Class.uncertain
    · rw [if_pos hu] at h
      rw [alookup_aupdate_self _ _ w _ hp] at h
      injection h with hw
      subst hw
      exact applyNeighborRules_resolved _ _ _
    · rw [if_neg hu, hp] at h
      injection h with hw
      rw [← hw]
      cases hcl : w.classification with
      | growth => exact Or.inl rfl
      | inhibition => exact Or.inr rfl
      | uncertain => exact absurd hcl hu

theorem resolveStep_preserves_resolvedAt (m : List ((ℕ × ℕ) × ClassifiedWell))
    (p k : ℕ × ℕ)
    (h : ∀ rec, alookup k m = some rec → resolvedClass rec.classification) :
    ∀ rec, alookup k (resolveStep m p) = some rec →
      resolvedClass rec.classification := by
  by_cases hkp : k = p
  · subst hkp
    exact fun rec hrec => resolveStep_self_resolved m k rec hrec
  · intro rec hrec
    rw [resolveStep_lookup_ne m p k hkp] at hrec
    exact h rec hrec

theorem resolveFold_preserves_resolvedAt (ps : List (ℕ × ℕ))
    (m : List ((ℕ × ℕ) × ClassifiedWell)) (k : ℕ × ℕ)
    (h : ∀ rec, alookup k m = some rec → resolvedClass rec.classification) :
    ∀ rec, alookup k (ps.foldl resolveStep m) = some rec →
      resolvedClass rec.classification := by
  induction ps generalizing m with
  | nil => exact h
  | cons p t ih =>
    exact ih (resolveStep m p) (resolveStep_preserves_resolvedAt m p k h)

theorem resolveFold_resolves_mem (ps : List (ℕ × ℕ))
    (m : List ((ℕ × ℕ) × ClassifiedWell)) (k : ℕ × ℕ) (hk : k ∈ ps) :
    ∀ rec, alookup k (ps.foldl resolveStep m) = some rec →
      resolvedClass rec.classification := by
  induction ps generalizing m with
  | nil => cases hk
  | cons p t ih =>
    rcases List.mem_cons.mp hk with rfl | hmem
    · exact resolveFold_preserves_resolvedAt t (resolveStep m k) k
        (fun rec h => resolveStep_self_resolved m k rec h)
    · exact ih (resolveStep m p) hmem

theorem resolveStep_isSome (m : List ((ℕ × ℕ) × ClassifiedWell))
    (p k : ℕ × ℕ) :
    (alookup k (resolveStep m p)).isSome = (alookup k m).isSome := by
  cases hp : alookup p m with
  | none => rw [resolveStep_of_none m p hp]
  | some w =>
    rw [resolveStep_of_some m p w hp]
    unfold resolveWith
    by_cases hu : w.classification = Class.uncertain
    · rw [if_pos hu]
      exact alookup_aupdate_isSome _ _ _ _
    · rw [if_neg hu]

theorem resolveFold_isSome (ps : List (ℕ × ℕ))
    (m : List ((ℕ × ℕ) × ClassifiedWell)) (k : ℕ × ℕ) :
    (alookup k (ps.foldl resolveStep m)).isSome = (alookup k m).isSome := by
  induction ps generalizing m with
  | nil => rfl
  | cons p t ih => rw [List.foldl_cons, ih, resolveStep_isSome]

theorem resolveStep_keeps_decided (m : List ((ℕ × ℕ) × ClassifiedWell))
    (p k : ℕ × ℕ) (w : ClassifiedWell) (hw : alookup k m = some w)
    (hnu : ¬ w.classification = Class.uncertain) :
    alookup k (resolveStep m p) = some w := by
  by_cases hkp : k = p
  · subst hkp
    rw [resolveStep_of_some m k w hw]
    unfold resolveWith
    rw [if_neg hnu]
    exact hw
  · rw [resolveStep_lookup_ne m p k hkp]
    exact hw

theorem resolveFold_keeps_decided (ps : List (ℕ × ℕ))
    (m : List ((ℕ × ℕ) × ClassifiedWell)) (k : ℕ × ℕ) (w : ClassifiedWell)
    (hw : alookup k m = some w)
    (hnu : ¬ w.classification = Class.uncertain) :
    alookup k (ps.foldl resolveStep m) = some w := by
  induction ps generalizing m with
  | nil => exact hw
  | cons p t ih =>
    exact ih (resolveStep m p) (resolveStep_keeps_decided m p k w hw hnu)

/-! ## Lemmas about the grid assembly -/

theorem rcPairs_length : rcPairs.length = 96 := by decide

theorem mem_rcPairs (r c : ℕ) (hr : r < 8) (hc : c < 12) :
    ((r, c) : ℕ × ℕ) ∈ rcPairs := by
  unfold rcPairs ROWS COLS
  rw [List.mem_flatMap]
  exact ⟨r, List.mem_range.mpr hr,
    List.mem_map.mpr ⟨c, List.mem_range.mpr hc, rfl⟩⟩

theorem buildGrid_length (f : ℕ → ℕ → Slot) : (buildGrid f).length = 96 := by
  unfold buildGrid
  rw [List.length_map, rcPairs_length]

theorem naiveGrid_fst (imgW imgH medRadius : ℚ) :
    (naiveGrid imgW imgH medRadius).1 = buildGrid (fun r c =>
      ⟨imgW / COLS / 2 + (c : ℚ) * (imgW / COLS),
        imgH / ROWS / 2 + (r : ℚ) * (imgH / ROWS), medRadius, false⟩) := rfl

theorem naiveGrid_snd (imgW imgH medRadius : ℚ) :
    (naiveGrid imgW imgH medRadius).2 =
      (imgW / COLS / 2, imgH / ROWS / 2, imgW / COLS, imgH / ROWS) := rfl

theorem mem_buildGrid (f : ℕ → ℕ → Slot) (e : (ℕ × ℕ) × Slot)
    (he : e ∈ buildGrid f) : e.2 = f e.1.1 e.1.2 := by
  unfold buildGrid at he
  obtain ⟨p, _, rfl⟩ := List.mem_map.mp he
  rfl

/-! ## Lemmas about `classify_wells` -/

theorem classifyWells_of_some (wells : List ((ℕ × ℕ) × WellData))
    (ctrl : WellData) (h : alookup CONTROL_KEY wells = some ctrl) :
    classifyWells wells = some (resolveUncertain (phase1 wells ctrl)) := by
  unfold classifyWells
  rw [h]

theorem phase1_lookup (wells : List ((ℕ × ℕ) × WellData)) (ctrl : WellData)
    (k : ℕ × ℕ) :
    alookup k (phase1 wells ctrl) = (alookup k wells).map (fun d =>
      classifyOne d ctrl (calibrate wells ctrl.hsvMedian).1
        (calibrate wells ctrl.hsvMedian).2.1
        (calibrate wells ctrl.hsvMedian).2.2) := by
  simp only [phase1]
  exact alookup_map k (fun d =>
    classifyOne d ctrl (calibrate wells ctrl.hsvMedian).1
      (calibrate wells ctrl.hsvMedian).2.1
      (calibrate wells ctrl.hsvMedian).2.2) wells

/-! ## Monotonicity of the scores in saturation -/

theorem absSatAdj_anti (s1 s2 : ℚ) (h : s1 ≤ s2) :
    absSatAdj s2 ≤ absSatAdj s1 := by
  unfold absSatAdj
  split_ifs <;> linarith

theorem absHueAdj_anti (hq s1 s2 : ℚ) (h : s1 ≤ s2) :
    absHueAdj hq s2 ≤ absHueAdj hq s1 := by
  unfold absHueAdj
  split_ifs <;> linarith

theorem absGreenAdj_anti (r g b s1 s2 : ℚ) (h : s1 ≤ s2) :
    absGreenAdj r g b s2 ≤ absGreenAdj r g b s1 := by
  unfold absGreenAdj
  split_ifs <;>
    first
      | linarith
      | (rename_i ha hb
         exact absurd ⟨hb.1, hb.2.1, lt_of_lt_of_le hb.2.2 h⟩ ha)

theorem computeAbsoluteScore_anti (hq v : ℚ) (rgb : ℚ × ℚ × ℚ)
    (gS iS mid s1 s2 : ℚ) (h : s1 ≤ s2) :
    computeAbsoluteScore (hq, s2, v) rgb gS iS mid ≤
      computeAbsoluteScore (hq, s1, v) rgb gS iS mid := by
  unfold computeAbsoluteScore
  dsimp only
  apply clip_mono
  have h1 := absSatAdj_anti s1 s2 h
  have h2 := absHueAdj_anti hq s1 s2 h
  have h3 := absGreenAdj_anti rgb.1 rgb.2.1 rgb.2.2 s1 s2 h
  linarith

theorem relSatScore_anti (gS iS s1 s2 : ℚ) (h : s1 ≤ s2) :
    relSatScore s2 gS iS ≤ relSatScore s1 gS iS := by
  unfold relSatScore
  dsimp only
  have hrange : (0 : ℚ) < max (iS - gS) 30 :=
    lt_of_lt_of_le (by norm_num) (le_max_right _ _)
  have hdiv : (s1 - gS) / max (iS - gS) 30 ≤ (s2 - gS) / max (iS - gS) 30 :=
    (div_le_div_right hrange).mpr (by linarith)
  have := clip_mono _ _ 0 1 hdiv
  linarith

theorem computeRelativeScore_anti (hq v : ℚ) (rgb ctrlHsv ctrlRgb : ℚ × ℚ × ℚ)
    (gS iS s1 s2 : ℚ) (h : s1 ≤ s2) :
    computeRelativeScore (hq, s2, v) rgb ctrlHsv ctrlRgb gS iS ≤
      computeRelativeScore (hq, s1, v) rgb ctrlHsv ctrlRgb gS iS := by
  unfold computeRelativeScore
  dsimp only
  apply clip_mono
  have h1 := relSatScore_anti gS iS s1 s2 h
  linarith

/-! ## The degenerate (empty) well always scores as growth -/

theorem calibrate_growthSat_nonneg (wells : List ((ℕ × ℕ) × WellData))
    (ctrlHsv : ℚ × ℚ × ℚ) (hsat : ∀ e ∈ wells, 0 ≤ e.2.hsvMedian.2.1)
    (hctrl : 0 ≤ ctrlHsv.2.1) : 0 ≤ (calibrate wells ctrlHsv).1 := by
  unfold calibrate
  dsimp only
  split_ifs with hempty
  · exact hctrl
  · apply listMedian_nonneg
    intro x hx
    obtain ⟨e, he, rfl⟩ := List.mem_map.mp hx
    exact hsat e (List.mem_filter.mp he).1

theorem emptyWell_absScore (gS iS mid : ℚ) :
    computeAbsoluteScore emptyWell.hsvMedian emptyWell.rgbMean gS iS mid
      = 19/20 := by
  norm_num [computeAbsoluteScore, absSatAdj, absHueAdj, absRbAdj, absGreenAdj,
    emptyWell, clip]

theorem emptyWell_relScore_bounds (ctrl : WellData) (gS iS : ℚ)
    (hgS : 0 ≤ gS) :
    2/5 ≤ computeRelativeScore emptyWell.hsvMedian emptyWell.rgbMean
        ctrl.hsvMedian ctrl.rgbMean gS iS ∧
      computeRelativeScore emptyWell.hsvMedian emptyWell.rgbMean
        ctrl.hsvMedian ctrl.rgbMean gS iS ≤ 1 := by
  constructor
  · unfold computeRelativeScore
    refine le_clip _ _ _ _ (by norm_num) ?_
    have hsat1 : relSatScore emptyWell.hsvMedian.2.1 gS iS = 1 := by
      simp only [relSatScore]
      have hrange : (0 : ℚ) < max (iS - gS) 30 :=
        lt_of_lt_of_le (by norm_num) (le_max_right _ _)
      have hnp : (emptyWell.hsvMedian.2.1 - gS) / max (iS - gS) 30 ≤ 0 := by
        apply div_nonpos_iff.mpr
        right
        constructor
        · show (0 : ℚ) - gS ≤ 0
          linarith
        · linarith
      rw [clip_eq_lo _ _ _ hnp (by norm_num)]
      norm_num
    have hhue : 0 ≤ relHueScore emptyWell.hsvMedian.1 ctrl.hsvMedian.1 :=
      le_max_left _ _
    have hrb : 0 ≤ relRbScore (emptyWell.rgbMean.1 - emptyWell.rgbMean.2.2)
        (ctrl.rgbMean.1 - ctrl.rgbMean.2.2) := by
      unfold relRbScore
      split_ifs <;> simp
    have hg : 0 ≤ relGScore emptyWell.rgbMean ctrl.rgbMean := lo_le_clip _ _ _
    rw [hsat1]
    linarith
  · exact clip_le_hi _ _ _ (by norm_num)

theorem classifyOne_emptyWell (ctrl : WellData) (gS iS mid : ℚ)
    (hgS : 0 ≤ gS) :
    classifyOne emptyWell ctrl gS iS mid =
      ⟨emptyWell,
        combinedGrowthScore emptyWell.hsvMedian emptyWell.rgbMean
          ctrl.hsvMedian ctrl.rgbMean gS iS mid,
        computeRelativeScore emptyWell.hsvMedian emptyWell.rgbMean
          ctrl.hsvMedian ctrl.rgbMean gS iS,
        computeAbsoluteScore emptyWell.hsvMedian emptyWell.rgbMean gS iS mid,
        Class.growth, Confidence.high⟩ := by
  obtain ⟨hlb, hub⟩ := emptyWell_relScore_bounds ctrl gS iS hgS
  have habs := emptyWell_absScore gS iS mid
  have hscore : combinedGrowthScore emptyWell.hsvMedian emptyWell.rgbMean
      ctrl.hsvMedian ctrl.rgbMean gS iS mid > PINK_THRESHOLD := by
    unfold combinedGrowthScore RELATIVE_WEIGHT ABSOLUTE_WEIGHT PINK_THRESHOLD
    rw [habs, clip_eq_self _ _ _ (by linarith) (by linarith)]
    linarith
  unfold classifyOne
  rw [if_pos hscore]

/-! ## Claim theorems -/

/-- C2: for every well mapping over the 8×12 plate that contains the control
well, every record in the mapping returned by `classify_wells` is classified
growth or inhibition after the neighbor-resolution pass; no finalized record
is left as `uncertain`. -/
theorem c2_no_uncertain_output (wells : List ((ℕ × ℕ) × WellData))
    (out : List ((ℕ × ℕ) × ClassifiedWell))
    (hdom : ∀ e ∈ wells, e.1.1 < 8 ∧ e.1.2 < 12)
    (hout : classifyWells wells = some out) :
    ∀ k rec, alookup k out = some rec →
      rec.classification = Class.growth ∨
        rec.classification = Class.inhibition := by
  intro k rec hk
  cases hctrl : alookup CONTROL_KEY wells with
  | none =>
    unfold classifyWells at hout
    rw [hctrl] at hout
    cases hout
  | some ctrl =>
    rw [classifyWells_of_some wells ctrl hctrl, Option.some.injEq] at hout
    subst hout
    unfold resolveUncertain at hk
    have hsome : (alookup k (phase1 wells ctrl)).isSome = true := by
      rw [← resolveFold_isSome rcPairs (phase1 wells ctrl) k, hk]
      rfl
    obtain ⟨d, hd⟩ : ∃ d, alookup k wells = some d := by
      rw [phase1_lookup] at hsome
      cases hw : alookup k wells with
      | none =>
        rw [hw] at hsome
        simp at hsome
      | some d => exact ⟨d, rfl⟩
    have hmem := alookup_mem k d wells hd
    obtain ⟨h1, h2⟩ := hdom _ hmem
    have hkrc : k ∈ rcPairs := by
      have := mem_rcPairs k.1 k.2 h1 h2
      simpa using this
    exact resolveFold_resolves_mem rcPairs (phase1 wells ctrl) k hkrc rec hk

/-- Witness for C2: at the concrete mapping `singletonCtrlWells` the
finalized control record is classified growth or inhibition. -/
theorem c2_no_uncertain_output_witness :
    ((alookup ((7 : ℕ), (0 : ℕ))
        ((classifyWells singletonCtrlWells).getD [])).getD defaultCW).classification
        = Class.growth ∨
      ((alookup ((7 : ℕ), (0 : ℕ))
        ((classifyWells singletonCtrlWells).getD [])).getD defaultCW).classification
        = Class.inhibition :=
  c2_no_uncertain_output singletonCtrlWells
    ((classifyWells singletonCtrlWells).getD []) (by decide) (by decide)
    (7, 0) _ (by decide)

/-- C5: an uncertain well whose left neighbor is classified growth and whose
right neighbor is classified inhibition is resolved by
`apply_neighbor_rules` to inhibition with medium confidence, for every value
of the well's own score. -/
theorem c5_transition_rule (score : ℚ) :
    applyNeighborRules score (some Class.growth) (some Class.inhibition) =
      (Class.inhibition, Confidence.medium) := by
  rfl

/-- C8: with fewer than 20 filtered candidates the grid stage skips fitting
entirely and emits the naive evenly spaced grid: step_x = width/12 and
step_y = height/8 exactly, origin at half a step on each axis, and all 96
slots marked not detected. -/
theorem c8_naive_fallback (circles : List Circle) (w h medRadius : ℚ)
    (hlt : circles.length < 20) :
    (gridStage circles w h medRadius).2 =
      (w / 12 / 2, h / 8 / 2, w / 12, h / 8) ∧
    (gridStage circles w h medRadius).1.length = 96 ∧
    ∀ e ∈ (gridStage circles w h medRadius).1, e.2.detected = false := by
  unfold gridStage
  rw [if_pos hlt]
  refine ⟨?_, ?_, ?_⟩
  · rw [naiveGrid_snd]
    norm_num [COLS, ROWS]
  · rw [naiveGrid_fst]
    exact buildGrid_length _
  · intro e he
    rw [naiveGrid_fst] at he
    rw [mem_buildGrid _ e he]

/-- Witness for C8: the empty candidate set on a 1200×800 image. -/
theorem c8_naive_fallback_witness :
    (gridStage [] 1200 800 35).2 =
      ((1200 : ℚ) / 12 / 2, (800 : ℚ) / 8 / 2, (1200 : ℚ) / 12, (800 : ℚ) / 8) ∧
    (gridStage ([] : List Circle) 1200 800 35).1.length = 96 :=
  ⟨(c8_naive_fallback [] 1200 800 35 (by decide)).1,
    (c8_naive_fallback [] 1200 800 35 (by decide)).2.1⟩

/-- C10: if the circle detector returns no circles at every sweep setting,
`detect_circles` returns an empty candidate set together with the fallback
median radius `min(width/12, height/8) × 0.42`, and every slot of the
resulting naive grid is assigned exactly that radius. -/
theorem c10_empty_sweeps (houghSweeps : List (Option (List Circle)))
    (w h : ℚ) (hempty : ∀ o ∈ houghSweeps, o = none) :
    detectCircles houghSweeps w h = ([], min (w / 12) (h / 8) * 0.42) ∧
    ∀ e ∈ (gridStage (detectCircles houghSweeps w h).1 w h
        (detectCircles houghSweeps w h).2).1,
      e.2.radius = min (w / 12) (h / 8) * 0.42 := by
  have hfm : houghSweeps.filterMap id = [] := by
    rw [List.filterMap_eq_nil_iff]
    intro a ha
    rw [hempty a ha]
    rfl
  have hdc : detectCircles houghSweeps w h =
      ([], min (w / 12) (h / 8) * 0.42) := by
    unfold detectCircles
    rw [hfm]
    rfl
  refine ⟨hdc, ?_⟩
  rw [hdc]
  intro e he
  unfold gridStage at he
  rw [if_pos (by decide : ([] : List Circle).length < 20),
    naiveGrid_fst] at he
  rw [mem_buildGrid _ e he]

/-- Witness for C10: two sweep settings, both returning nothing, on a
1200×800 image. -/
theorem c10_empty_sweeps_witness :
    detectCircles [none, none] 1200 800 =
      ([], min ((1200 : ℚ) / 12) ((800 : ℚ) / 8) * 0.42) :=
  (c10_empty_sweeps [none, none] 1200 800 (by decide)).1

/-- C4 counterexample: for candidates A=(0,0), B=(9,0), C=(18,0) with merge
distance 10, A–B and B–C are each within the merge distance (so the claim's
transitive grouping would merge all three into one candidate), yet
`_deduplicate` returns two merged candidates: grouping follows the seed A,
and C is farther than the merge distance from A. -/
theorem c4_dedup_counterexample :
    ((0 : ℚ) < 10 ∧ ((0 : ℚ) - 9) ^ 2 + ((0 : ℚ) - 0) ^ 2 < 10 ^ 2) ∧
    ((0 : ℚ) < 10 ∧ ((9 : ℚ) - 18) ^ 2 + ((0 : ℚ) - 0) ^ 2 < 10 ^ 2) ∧
    (deduplicate [⟨0, 0, 5⟩, ⟨9, 0, 5⟩, ⟨18, 0, 5⟩] 10).length = 2 ∧
    ¬ (deduplicate [⟨0, 0, 5⟩, ⟨9, 0, 5⟩, ⟨18, 0, 5⟩] 10).length = 1 := by
  decide

/-- C4 (amended): deduplication groups candidates greedily around list-order
seeds — each cluster is a seed plus all later unmerged candidates within the
merge distance of that seed, averaged componentwise — rather than by
transitive closure; in particular, any two pooled candidates within the
merge distance of each other yield exactly one merged candidate positioned
at their average. -/
theorem c4_dedup_pair_average (a b : Circle) (d : ℚ) (hd : 0 < d)
    (hab : (a.x - b.x) ^ 2 + (a.y - b.y) ^ 2 < d ^ 2) :
    deduplicate [a, b] d =
      [⟨(a.x + b.x) / 2, (a.y + b.y) / 2, (a.r + b.r) / 2⟩] := by
  have hpred : decide (0 < d ∧ (a.x - b.x) ^ 2 + (a.y - b.y) ^ 2 < d ^ 2)
      = true := by
    simp [hd, hab]
  unfold deduplicate
  show dedupFuel d 2 [a, b] = _
  unfold dedupFuel
  simp only [List.filter, hpred, Bool.not_true]
  unfold dedupFuel
  simp only [List.map, List.sum_cons, List.sum_nil, List.length_cons,
    List.length_nil]
  refine List.cons_eq_cons.mpr ⟨?_, rfl⟩
  have h2 : ((0 + 1 + 1 : ℕ) : ℚ) = 2 := by norm_num
  simp only [Circle.mk.injEq]
  refine ⟨?_, ?_, ?_⟩ <;> rw [h2] <;> ring

/-- Witness for C4 (amended): A=(0,0,4) and B=(3,4,6) at merge distance 10
(their distance is 5) merge into the single averaged candidate. -/
theorem c4_dedup_pair_average_witness :
    deduplicate [⟨0, 0, 4⟩, ⟨3, 4, 6⟩] 10 =
      [⟨((0 : ℚ) + 3) / 2, ((0 : ℚ) + 4) / 2, ((4 : ℚ) + 6) / 2⟩] :=
  c4_dedup_pair_average ⟨0, 0, 4⟩ ⟨3, 4, 6⟩ 10 (by norm_num) (by norm_num)

/-- C1 counterexample: `twoRowCircles` is a set of 20 filtered candidates
(two exact rows of ten wells, step 100 on x and 50 on y, of a 1200×400
image), yet the finalized step parameters of `fit_grid_robust` have ratio
step_x/step_y = 2, outside [0.85, 1.15]: the fitter applies no square-pitch
correction. -/
theorem c1_ratio_counterexample :
    20 ≤ twoRowCircles.length ∧
    ¬ ((0.85 : ℚ) ≤ (fitGridRobust twoRowCircles 1200 400 35).2.2.2.1 /
          (fitGridRobust twoRowCircles 1200 400 35).2.2.2.2 ∧
        (fitGridRobust twoRowCircles 1200 400 35).2.2.2.1 /
          (fitGridRobust twoRowCircles 1200 400 35).2.2.2.2 ≤ (1.15 : ℚ)) := by
  decide

/-- C1 (amended): the Grid Model Fitter always returns exactly 96 slots, but
applies no square-pitch correction: the estimated steps pass unchanged
through origin search and refinement, so the finalized step ratio is not
constrained to [0.85, 1.15] — on the 20-candidate two-row input the
finalized parameters are exactly (50, 25, 100, 50), with step ratio 2. -/
theorem c1_no_square_pitch_correction :
    (∀ (circles : List Circle) (w h medRadius : ℚ),
      (fitGridRobust circles w h medRadius).1.length = 96) ∧
    (fitGridRobust twoRowCircles 1200 400 35).2 = (50, 25, 100, 50) := by
  constructor
  · intro circles w h medRadius
    simp only [fitGridRobust]
    exact buildGrid_length _
  · decide

/-- C7: for a fixed control baseline and fixed calibration anchors, raising a
well's saturation beyond the inhibition anchor while holding hue, value and
the RGB channels fixed never increases the combined growth score
(0.65·relative + 0.35·absolute, clipped to [0, 1]). -/
theorem c7_saturation_monotone (hq v r g b ch cs cv cr cg cb : ℚ)
    (gS iS mid s1 s2 : ℚ) (hanchor : iS < s1) (h12 : s1 ≤ s2) :
    combinedGrowthScore (hq, s2, v) (r, g, b) (ch, cs, cv) (cr, cg, cb)
        gS iS mid ≤
      combinedGrowthScore (hq, s1, v) (r, g, b) (ch, cs, cv) (cr, cg, cb)
        gS iS mid := by
  unfold combinedGrowthScore RELATIVE_WEIGHT ABSOLUTE_WEIGHT
  apply clip_mono
  have h1 := computeRelativeScore_anti hq v (r, g, b) (ch, cs, cv) (cr, cg, cb)
    gS iS s1 s2 h12
  have h2 := computeAbsoluteScore_anti hq v (r, g, b) gS iS mid s1 s2 h12
  linarith

/-- Witness for C7 at concrete values (saturations 110 ≤ 120 above the
inhibition anchor 100). -/
theorem c7_saturation_monotone_witness :
    combinedGrowthScore ((10 : ℚ), 120, 50) (30, 20, 10) (5, 20, 200)
        (150, 100, 120) 30 100 65 ≤
      combinedGrowthScore ((10 : ℚ), 110, 50) (30, 20, 10) (5, 20, 200)
        (150, 100, 120) 30 100 65 :=
  c7_saturation_monotone 10 50 30 20 10 5 20 200 150 100 120 30 100 65
    110 120 (by norm_num) (by norm_num)

/-- C6 counterexample: a slot whose crop is smaller than 5×5 pixels yields
the `_empty_well` record (`pixel_count = 0`, zeroed statistics); running the
classifier on it produces a defined classification with pixel_count 0, but
its confidence is `high`, not `low` as claimed: the zero-saturation sample
scores 0.8525, well above the growth threshold. -/
theorem c6_confidence_counterexample :
    (alookup ((7 : ℕ), (0 : ℕ))
        ((classifyWells singletonCtrlWells).getD [])).map (·.confidence)
      = some Confidence.high ∧
    Confidence.high ≠ Confidence.low ∧
    (alookup ((7 : ℕ), (0 : ℕ))
        ((classifyWells singletonCtrlWells).getD [])).map
          (fun rec => rec.data.pixelCount) = some 0 := by
  decide

/-- C6 (amended): for every grid slot whose crop is smaller than 5×5 pixels
the pipeline still produces the `_empty_well` record with pixel_count 0 and
zeroed color statistics without failing, and the resulting classified well
has a defined classification — it is classified growth with `high`
confidence (not `low`), because the zeroed sample scores above the 0.50
growth threshold for every admissible calibration. -/
theorem c6_empty_crop_classified (wells : List ((ℕ × ℕ) × WellData))
    (out : List ((ℕ × ℕ) × ClassifiedWell)) (k : ℕ × ℕ)
    (hsat : ∀ e ∈ wells, 0 ≤ e.2.hsvMedian.2.1)
    (hout : classifyWells wells = some out)
    (hk : alookup k wells = some emptyWell) :
    (alookup k out).map
        (fun rec => (rec.classification, rec.confidence, rec.data.pixelCount))
      = some (Class.growth, Confidence.high, 0) := by
  cases hctrl : alookup CONTROL_KEY wells with
  | none =>
    unfold classifyWells at hout
    rw [hctrl] at hout
    cases hout
  | some ctrl =>
    rw [classifyWells_of_some wells ctrl hctrl, Option.some.injEq] at hout
    subst hout
    have hcs : 0 ≤ ctrl.hsvMedian.2.1 :=
      hsat _ (alookup_mem CONTROL_KEY ctrl wells hctrl)
    have hgS : 0 ≤ (calibrate wells ctrl.hsvMedian).1 :=
      calibrate_growthSat_nonneg wells ctrl.hsvMedian hsat hcs
    have hone := classifyOne_emptyWell ctrl (calibrate wells ctrl.hsvMedian).1
      (calibrate wells ctrl.hsvMedian).2.1
      (calibrate wells ctrl.hsvMedian).2.2 hgS
    have hrec : alookup k (phase1 wells ctrl) =
        some (classifyOne emptyWell ctrl (calibrate wells ctrl.hsvMedian).1
          (calibrate wells ctrl.hsvMedian).2.1
          (calibrate wells ctrl.hsvMedian).2.2) := by
      rw [phase1_lookup, hk]
      rfl
    unfold resolveUncertain
    rw [resolveFold_keeps_decided rcPairs (phase1 wells ctrl) k _ hrec
      (by rw [hone]; intro hcon; cases hcon)]
    rw [hone]
    rfl

/-- Witness for C6 (amended) at the concrete single-well mapping
`singletonCtrlWells`. -/
theorem c6_empty_crop_classified_witness :
    (alookup ((7 : ℕ), (0 : ℕ))
        ((classifyWells singletonCtrlWells).getD [])).map
        (fun rec => (rec.classification, rec.confidence, rec.data.pixelCount))
      = some (Class.growth, Confidence.high, 0) :=
  c6_empty_crop_classified singletonCtrlWells
    ((classifyWells singletonCtrlWells).getD []) (7, 0) (by decide)
    (by decide) (by decide)

/-! ## Lemmas about `calculate_mic` -/

theorem calculateMic_of_some (m : List ((ℕ × ℕ) × ClassifiedWell))
    (ctrl : ClassifiedWell) (h : alookup CONTROL_KEY m = some ctrl) :
    calculateMic m = some ((List.range ROWS).map
      (calcRow m ctrl.growthScore (col12EdgeArtifact m))) := by
  unfold calculateMic
  rw [h]

theorem calcRow_micColumn (m : List ((ℕ × ℕ) × ClassifiedWell))
    (ctrlScore : ℚ) (artifact : Bool) (r : ℕ) :
    (calcRow m ctrlScore artifact r).micColumn = rowMicColumn m ctrlScore r :=
  rfl

theorem calcRow_micValue (m : List ((ℕ × ℕ) × ClassifiedWell))
    (ctrlScore : ℚ) (artifact : Bool) (r c : ℕ) (q : ℚ)
    (hcol : rowMicColumn m ctrlScore r = some c)
    (hq : concentrations r c = some q) :
    (calcRow m ctrlScore artifact r).micValue = some (MicVal.conc q) := by
  have h0 : rowMicValue0 m ctrlScore r = some (MicVal.conc q) := by
    rw [rowMicValue0, hcol]
    simp [hq]
  simp only [calcRow, h0]
  simp

theorem rowThreshold_eq (r : ℕ) (hr : r < 8) :
    rowThreshold r = if r = 7 then (0.90 : ℚ) else 0.50 := by
  interval_cases r <;> decide

theorem rowThreshold_pos (r : ℕ) (hr : r < 8) : 0 < rowThreshold r := by
  rw [rowThreshold_eq r hr]
  split_ifs <;> norm_num

theorem rowStartCol_eq (r : ℕ) (hr : r < 8) :
    rowStartCol r = if r = 7 then 1 else 0 := by
  interval_cases r <;> decide

theorem rowStartCol_le (r : ℕ) (hr : r < 8) : rowStartCol r ≤ 12 := by
  rw [rowStartCol_eq r hr]
  split_ifs <;> norm_num

/-- The guarded relative inhibition reduces to `max 0 (1 − score/control)`
when the control score is above the division guard. -/
theorem relInhibition_of_pos (ctrlScore s : ℚ) (h : ctrlScore > 0.01) :
    relInhibition ctrlScore s = max 0 (1 - s / ctrlScore) := by
  rw [relInhibition, if_pos h]

/-- The guarded relative inhibition is `0` when the control score is at most
the division guard: the division is never taken. -/
theorem relInhibition_of_le (ctrlScore s : ℚ) (h : ctrlScore ≤ 0.01) :
    relInhibition ctrlScore s = 0 := by
  rw [relInhibition, if_neg (by linarith), max_self]

theorem max_ge_iff_of_pos (x thr : ℚ) (hthr : 0 < thr) :
    max 0 x ≥ thr ↔ x ≥ thr := by
  constructor
  · intro h
    rcases max_choice 0 x with hm | hm
    · rw [hm] at h
      linarith
    · rw [hm] at h
      exact h
  · intro h
    exact le_trans h (le_max_right _ _)

/-- Characterization of the MIC scan: over a segment of present scores, it
returns `some c` exactly when `c` is the first in-range column at or after
the start whose relative inhibition reaches the threshold. -/
theorem findMicCol_spec (ctrlScore thr : ℚ) (w : ℕ → ℚ) :
    ∀ (scores : List (Option ℚ)) (c0 : ℕ),
      (∀ i, i < scores.length → scores.get? i = some (some (w (c0 + i)))) →
      ∀ c, (findMicCol ctrlScore thr scores c0 = some c ↔
        (c0 ≤ c ∧ c < c0 + scores.length ∧
          relInhibition ctrlScore (w c) ≥ thr ∧
          ∀ c2, c2 < c → c0 ≤ c2 →
            ¬ relInhibition ctrlScore (w c2) ≥ thr)) := by
  intro scores
  induction scores with
  | nil =>
    intro c0 _ c
    constructor
    · intro h
      cases h
    · rintro ⟨h1, h2, _, _⟩
      simp at h2
      omega
  | cons s t ih =>
    intro c0 hsc c
    have h0 : s = some (w c0) := by
      have := hsc 0 (by simp)
      simpa using this
    subst h0
    have ht : ∀ i, i < t.length → t.get? i = some (some (w (c0 + 1 + i))) := by
      intro i hi
      have h1 := hsc (i + 1) (by simp; omega)
      rw [List.get?_cons_succ] at h1
      rw [h1]
      have harg : c0 + (i + 1) = c0 + 1 + i := by omega
      rw [harg]
    by_cases hP : relInhibition ctrlScore (w c0) ≥ thr
    · rw [findMicCol, if_pos hP]
      constructor
      · intro h
        injection h with h
        subst h
        refine ⟨le_refl _, by simp, hP, ?_⟩
        intro c2 _ hc2
        omega
      · rintro ⟨h1, _, _, h4⟩
        rcases Nat.eq_or_lt_of_le h1 with rfl | hlt
        · rfl
        · exact absurd hP (h4 c0 hlt (le_refl _))
    · rw [findMicCol, if_neg hP, ih (c0 + 1) ht c]
      constructor
      · rintro ⟨h1, h2, h3, h4⟩
        refine ⟨by omega, by simp; omega, h3, ?_⟩
        intro c2 hc2 hc2'
        rcases Nat.eq_or_lt_of_le hc2' with rfl | h'
        · exact hP
        · exact h4 c2 hc2 (by omega)
      · rintro ⟨h1, h2, h3, h4⟩
        have hne : c ≠ c0 := by
          rintro rfl
          exact hP h3
        refine ⟨by omega, by simp at h2 ⊢; omega, h3, ?_⟩
        intro c2 hc2 hc2'
        exact h4 c2 hc2 (by omega)

/-- The dropped well-score segment of a fully present row matches its score
function entrywise. -/
theorem rowWellScores_drop_spec (m : List ((ℕ × ℕ) × ClassifiedWell))
    (r : ℕ) (w : ℕ → ℚ) (startCol : ℕ)
    (hw : ∀ c, c < 12 → startCol ≤ c →
      (alookup (r, c) m).map (·.growthScore) = some (w c)) :
    ∀ i, i < ((rowWellScores m r).drop startCol).length →
      ((rowWellScores m r).drop startCol).get? i =
        some (some (w (startCol + i))) := by
  intro i hi
  have hlen : ((rowWellScores m r).drop startCol).length = 12 - startCol := by
    rw [List.length_drop]
    unfold rowWellScores
    rw [List.length_map, List.length_range]
    rfl
  rw [hlen] at hi
  rw [List.get?_drop]
  unfold rowWellScores
  rw [List.get?_map, List.get?_range (show startCol + i < COLS by
    unfold COLS
    omega)]
  simp only [Option.map_some']
  rw [hw (startCol + i) (by omega) (by omega)]

/-- C3: for a classified-well mapping whose control growth score exceeds
0.01, the MIC calculator reports for each (fully present) row the first
column at or after the row's start column (1 for row H, 0 otherwise) whose
relative inhibition `1 − score/control` reaches the row's threshold (0.90
for amphotericin B in row H, 0.50 for every other agent), and the reported
MIC value is that column's concentration. -/
theorem c3_mic_first_threshold_column
    (m : List ((ℕ × ℕ) × ClassifiedWell)) (ctrlScore : ℚ) (r : ℕ)
    (w : ℕ → ℚ)
    (hctrl : (alookup CONTROL_KEY m).map (·.growthScore) = some ctrlScore)
    (hpos : ctrlScore > 0.01) (hr : r < 8)
    (hw : ∀ c, c < 12 → (if r = 7 then 1 else 0) ≤ c →
      (alookup (r, c) m).map (·.growthScore) = some (w c)) :
    (∀ c : ℕ,
      ((calculateMic m).bind (fun res => res.get? r)).map (·.micColumn)
          = some (some c) ↔
        ((if r = 7 then 1 else 0) ≤ c ∧ c < 12 ∧
          1 - w c / ctrlScore ≥ (if r = 7 then (0.90 : ℚ) else 0.50) ∧
          ∀ c2, c2 < c → (if r = 7 then 1 else 0) ≤ c2 →
            1 - w c2 / ctrlScore < (if r = 7 then (0.90 : ℚ) else 0.50))) ∧
    (∀ c : ℕ, ∀ q : ℚ,
      ((calculateMic m).bind (fun res => res.get? r)).map (·.micColumn)
          = some (some c) →
        concentrations r c = some q →
        ((calculateMic m).bind (fun res => res.get? r)).map (·.micValue)
          = some (some (MicVal.conc q))) := by
  obtain ⟨ctrl, hc, hcs⟩ : ∃ ctrl, alookup CONTROL_KEY m = some ctrl ∧
      ctrl.growthScore = ctrlScore := by
    cases hc : alookup CONTROL_KEY m with
    | none =>
      rw [hc] at hctrl
      cases hctrl
    | some ctrl =>
      rw [hc] at hctrl
      exact ⟨ctrl, rfl, by injection hctrl⟩
  have hbind : (calculateMic m).bind (fun res => res.get? r) =
      some (calcRow m ctrlScore (col12EdgeArtifact m) r) := by
    rw [calculateMic_of_some m ctrl hc, hcs, Option.some_bind,
      List.get?_map, List.get?_range (show r < ROWS from hr)]
    rfl
  have hwS : ∀ c, c < 12 → rowStartCol r ≤ c →
      (alookup (r, c) m).map (·.growthScore) = some (w c) := by
    rw [rowStartCol_eq r hr]
    exact hw
  have hdrop := rowWellScores_drop_spec m r w (rowStartCol r) hwS
  have hspec := findMicCol_spec ctrlScore (rowThreshold r) w
    ((rowWellScores m r).drop (rowStartCol r)) (rowStartCol r) hdrop
  have hlen : ((rowWellScores m r).drop (rowStartCol r)).length =
      12 - rowStartCol r := by
    rw [List.length_drop]
    unfold rowWellScores
    rw [List.length_map, List.length_range]
    rfl
  have hsle := rowStartCol_le r hr
  have hthr := rowThreshold_pos r hr
  have hiff : ∀ c, rowMicColumn m ctrlScore r = some c ↔
      ((if r = 7 then 1 else 0) ≤ c ∧ c < 12 ∧
        1 - w c / ctrlScore ≥ (if r = 7 then (0.90 : ℚ) else 0.50) ∧
        ∀ c2, c2 < c → (if r = 7 then 1 else 0) ≤ c2 →
          1 - w c2 / ctrlScore < (if r = 7 then (0.90 : ℚ) else 0.50)) := by
    intro c
    rw [rowMicColumn, hspec c]
    rw [hlen]
    rw [show rowStartCol r + (12 - rowStartCol r) = 12 by omega]
    rw [← rowStartCol_eq r hr, ← rowThreshold_eq r hr]
    constructor
    · rintro ⟨h1, h2, h3, h4⟩
      rw [relInhibition_of_pos _ _ hpos, max_ge_iff_of_pos _ _ hthr] at h3
      refine ⟨h1, h2, h3, ?_⟩
      intro c2 hc2 hc2'
      have := h4 c2 hc2 hc2'
      rw [relInhibition_of_pos _ _ hpos, max_ge_iff_of_pos _ _ hthr] at this
      linarith [not_le.mp this]
    · rintro ⟨h1, h2, h3, h4⟩
      rw [relInhibition_of_pos _ _ hpos, max_ge_iff_of_pos _ _ hthr]
      refine ⟨h1, h2, h3, ?_⟩
      intro c2 hc2 hc2'
      rw [relInhibition_of_pos _ _ hpos, max_ge_iff_of_pos _ _ hthr]
      exact not_le.mpr (h4 c2 hc2 hc2')
  constructor
  · intro c
    rw [hbind, Option.map_some', Option.some.injEq, calcRow_micColumn]
    exact hiff c
  · intro c q hcol hq
    rw [hbind, Option.map_some', Option.some.injEq, calcRow_micColumn] at hcol
    rw [hbind, Option.map_some', Option.some.injEq]
    exact calcRow_micValue m ctrlScore (col12EdgeArtifact m) r c q hcol hq

/-- Witness for C3: the spec's end-to-end scenario `micDemoWells` (control
score 0.90, row A decreasing linearly); the first column with
`1 − score/0.90 ≥ 0.50` is column 6, concentration 0.25 mg/L. -/
theorem c3_mic_first_threshold_column_witness :
    ((calculateMic micDemoWells).bind (fun res => res.get? 0)).map
        (·.micColumn) = some (some 6) ∧
    ((calculateMic micDemoWells).bind (fun res => res.get? 0)).map
        (·.micValue) = some (some (MicVal.conc (1/4))) := by
  have h := c3_mic_first_threshold_column micDemoWells (9/10) 0 micDemoScore
    (by decide) (by norm_num) (by norm_num) (by decide)
  have hcol : ((calculateMic micDemoWells).bind (fun res => res.get? 0)).map
      (·.micColumn) = some (some 6) := (h.1 6).mpr (by decide)
  exact ⟨hcol, h.2 6 (1/4) hcol (by decide)⟩

/-- C9: when the control growth score is at most 0.01, the division branch
of the relative-inhibition computation is never taken — the inhibition is 0
for every well score — and no row's threshold scan selects a column:
`mic_column` is `None` for every row. -/
theorem c9_zero_control_no_division
    (m : List ((ℕ × ℕ) × ClassifiedWell)) (ctrlScore : ℚ)
    (hctrl : (alookup CONTROL_KEY m).map (·.growthScore) = some ctrlScore)
    (hle : ctrlScore ≤ 0.01) :
    (∀ s, relInhibition ctrlScore s = 0) ∧
    (∀ r, r < 8 →
      ((calculateMic m).bind (fun res => res.get? r)).map (·.micColumn)
        = some none) := by
  have hrel : ∀ s, relInhibition ctrlScore s = 0 := fun s =>
    relInhibition_of_le ctrlScore s hle
  refine ⟨hrel, ?_⟩
  intro r hr
  obtain ⟨ctrl, hc, hcs⟩ : ∃ ctrl, alookup CONTROL_KEY m = some ctrl ∧
      ctrl.growthScore = ctrlScore := by
    cases hc : alookup CONTROL_KEY m with
    | none =>
      rw [hc] at hctrl
      cases hctrl
    | some ctrl =>
      rw [hc] at hctrl
      exact ⟨ctrl, rfl, by injection hctrl⟩
  have hnone : ∀ (scores : List (Option ℚ)) (c0 : ℕ),
      findMicCol ctrlScore (rowThreshold r) scores c0 = none := by
    intro scores
    induction scores with
    | nil => intro c0; rfl
    | cons s t ih =>
      intro c0
      cases s with
      | none => exact ih (c0 + 1)
      | some q =>
        rw [findMicCol, if_neg ?_]
        · exact ih (c0 + 1)
        · rw [hrel q]
          exact not_le.mpr (rowThreshold_pos r hr)
  rw [calculateMic_of_some m ctrl hc, hcs, Option.some_bind,
    List.get?_map, List.get?_range (show r < ROWS from hr)]
  simp only [Option.map_some', Option.some.injEq, calcRow_micColumn,
    rowMicColumn]
  exact hnone _ _

/-- Witness for C9 at the concrete mapping `zeroCtrlWells` (control score
0): the guarded inhibition of an arbitrary score 0.7 is 0, and row 3's
`mic_column` is `None`. -/
theorem c9_zero_control_no_division_witness :
    relInhibition 0 (7/10) = 0 ∧
    ((calculateMic zeroCtrlWells).bind (fun res => res.get? 3)).map
        (·.micColumn) = some none := by
  have h := c9_zero_control_no_division zeroCtrlWells 0 (by decide)
    (by norm_num)
  exact ⟨h.1 (7/10), h.2 3 (by norm_num)⟩

end MICReader
